import Mathlib

/-!
Verification of the incremental stream-ingestion and adaptive playback
pipeline of the `starslittle/agent` conversational web client.

The development shallowly embeds the three components of the pipeline:

* the Frame Decoder — the byte-chunk → line → event reassembly loops of
  `postQueryStream` (line-JSON framing, `src/frontend/src/lib/api.ts`) and
  `postQueryStreamSSE` (field-framed SSE framing, same module, unnamed copy);
* the Playback Scheduler — the `useSmoothTyping` hook
  (`src/frontend/src/hooks/useSmoothTyping.ts`);
* the Session Orchestrator — the `handleSend` handlers of the two
  `ChatContainer` variants (`ChatContainer.tsx`, SSE + cancellation; and the
  older line-JSON variant with the non-streaming fallback).

JavaScript strings are modelled as lists of UTF-16 code units (`List Nat`),
so that `TextDecoder` output, `String.prototype.length`, `split('')` and
surrogate pairs behave exactly as in the source.  Platform primitives used
by the source (`TextDecoder` with `stream: true`, `JSON.parse`, the JS
truthiness test and `String` coercion) are given executable models that
follow the WHATWG/ECMAScript specifications of those primitives.
-/

/-! ## UTF-16 code units and test-input helpers -/

/-- Translation of a Unicode scalar value into UTF-16 code units: scalar
values beyond the BMP become a surrogate pair, as in a JavaScript string. -/
def cpToUnits (cp : Nat) : List Nat :=
  if cp < 0x10000 then [cp]
  else [0xD800 + (cp - 0x10000) / 0x400, 0xDC00 + (cp - 0x10000) % 0x400]

/-- View of a Lean string literal as a JavaScript string (UTF-16 units);
used to write concrete JS string constants appearing in the source. -/
def uts (s : String) : List Nat :=
  s.data.foldr (fun c acc => cpToUnits c.toNat ++ acc) []

/-- UTF-8 encoding of a Unicode scalar value; models the byte stream the
server transport delivers for a character. -/
def encodeCp (cp : Nat) : List Nat :=
  if cp < 0x80 then [cp]
  else if cp < 0x800 then [0xC0 + cp / 64, 0x80 + cp % 64]
  else if cp < 0x10000 then
    [0xE0 + cp / 4096, 0x80 + (cp / 64) % 64, 0x80 + cp % 64]
  else
    [0xF0 + cp / 262144, 0x80 + (cp / 4096) % 64, 0x80 + (cp / 64) % 64,
     0x80 + cp % 64]

/-- UTF-8 byte sequence of a string; used to build concrete reference byte
streams for the decoder. -/
def utf8Encode (s : String) : List Nat :=
  s.data.foldr (fun c acc => encodeCp c.toNat ++ acc) []

/-! ## Streaming UTF-8 decoder

Model of `new TextDecoder("utf-8")` with `decode(value, \x7b stream: true \x7d)`
as used by both streaming readers: the WHATWG UTF-8 decoder in replacement
error mode, with the state of an incomplete multibyte sequence carried
across chunk boundaries.  The source never flushes the decoder (on `done`
it simply stops reading), so trailing incomplete bytes are dropped. -/

/-- Carry-over state of the WHATWG streaming UTF-8 decoder. -/
structure Utf8State where
  codePoint : Nat
  bytesSeen : Nat
  bytesNeeded : Nat
  lowerBoundary : Nat
  upperBoundary : Nat
deriving DecidableEq, Repr

/-- Initial (empty-carry) UTF-8 decoder state. -/
def Utf8State.init : Utf8State := ⟨0, 0, 0, 0x80, 0xBF⟩

/-- WHATWG UTF-8 decoder step for a byte arriving with no pending sequence:
either emits an ASCII unit, starts a multibyte sequence, or emits U+FFFD. -/
def utf8Lead (b : Nat) : Utf8State × List Nat :=
  if b ≤ 0x7F then (Utf8State.init, [b])
  else if 0xC2 ≤ b ∧ b ≤ 0xDF then
    (⟨b % 32, 0, 1, 0x80, 0xBF⟩, [])
  else if 0xE0 ≤ b ∧ b ≤ 0xEF then
    (⟨b % 16, 0, 2, if b = 0xE0 then 0xA0 else 0x80,
      if b = 0xED then 0x9F else 0xBF⟩, [])
  else if 0xF0 ≤ b ∧ b ≤ 0xF4 then
    (⟨b % 8, 0, 3, if b = 0xF0 then 0x90 else 0x80,
      if b = 0xF4 then 0x8F else 0xBF⟩, [])
  else (Utf8State.init, [0xFFFD])

/-- One byte of the WHATWG streaming UTF-8 decode; emits the UTF-16 units of
any completed code point (a supplementary code point emits a surrogate
pair, as a JavaScript string stores it). -/
def utf8Step (s : Utf8State) (b : Nat) : Utf8State × List Nat :=
  if s.bytesNeeded = 0 then utf8Lead b
  else if s.lowerBoundary ≤ b ∧ b ≤ s.upperBoundary then
    let cp := s.codePoint * 64 + b % 64
    if s.bytesSeen + 1 = s.bytesNeeded then (Utf8State.init, cpToUnits cp)
    else (⟨cp, s.bytesSeen + 1, s.bytesNeeded, 0x80, 0xBF⟩, [])
  else
    -- invalid continuation: emit U+FFFD and reprocess the byte as a lead
    let r := utf8Lead b
    (r.1, 0xFFFD :: r.2)

/-- Streaming UTF-8 decode of a byte list, accumulating emitted units. -/
def utf8DecodeAux : Utf8State × List Nat → List Nat → Utf8State × List Nat
  | su, [] => su
  | (s, out), b :: bs =>
    let r := utf8Step s b
    utf8DecodeAux (r.1, out ++ r.2) bs

/-- Decode one raw chunk: the model of `decoder.decode(value, stream: true)`.
Returns the updated carry state and the newly produced UTF-16 units. -/
def utf8Decode (s : Utf8State) (bytes : List Nat) : Utf8State × List Nat :=
  utf8DecodeAux (s, []) bytes

/-! ## Line reassembly

Model of `buffer += text; const lines = buffer.split("\n");
buffer = lines.pop() || ""` from both streaming readers. -/

/-- One unit of `split("\n")`: a newline flushes the current segment, any
other unit extends it. -/
def lineStep (acc : List (List Nat) × List Nat) (u : Nat) :
    List (List Nat) × List Nat :=
  if u = 10 then (acc.1 ++ [acc.2], []) else (acc.1, acc.2 ++ [u])

/-- Split helper running over the text from a given accumulator. -/
def lineSplitAux : List (List Nat) × List Nat → List Nat →
    List (List Nat) × List Nat
  | acc, [] => acc
  | acc, u :: us => lineSplitAux (lineStep acc u) us

/-- Split a text into the complete lines and the retained trailing (possibly
incomplete) segment, exactly as `split("\n")` followed by `pop()`. -/
def lineSplit (text : List Nat) : List (List Nat) × List Nat :=
  lineSplitAux ([], []) text

/-! ## Model of `JSON.parse`

Executable model of the ECMAScript `JSON.parse` grammar over UTF-16 units:
JSON whitespace, `null` / `true` / `false`, strings with escapes (including
`\uXXXX`, stored as raw UTF-16 units), strict JSON numbers (the lexeme is
retained), arrays and objects (later duplicate keys overwrite earlier ones,
which the last-occurrence field lookup below reproduces).  A parse failure
(`none`) corresponds to `JSON.parse` throwing. -/

/-- Parsed JavaScript value as produced by `JSON.parse`.  Numbers keep their
source lexeme: the pipeline only ever tests numbers for truthiness and
concatenates string data, so no floating-point semantics are needed. -/
inductive JsValue where
  | null
  | bool (b : Bool)
  | num (lexeme : List Nat)
  | str (s : List Nat)
  | arr (elems : List JsValue)
  | obj (fields : List (List Nat × JsValue))

/-- JSON whitespace units accepted by `JSON.parse`. -/
def jsonWs (u : Nat) : Bool := u = 32 || u = 9 || u = 10 || u = 13

/-- Decimal digit unit. -/
def isDigitU (u : Nat) : Bool := 48 ≤ u && u ≤ 57

/-- Hexadecimal digit value of a unit, if any. -/
def hexVal (u : Nat) : Option Nat :=
  if 48 ≤ u ∧ u ≤ 57 then some (u - 48)
  else if 65 ≤ u ∧ u ≤ 70 then some (u - 55)
  else if 97 ≤ u ∧ u ≤ 102 then some (u - 87)
  else none

/-- Body of a JSON string literal after the opening quote: units up to the
closing quote, with escape sequences resolved (a `\uXXXX` escape yields its
raw UTF-16 unit).  Returns the content and the rest of the input. -/
def parseStringBody : List Nat → Option (List Nat × List Nat)
  | [] => none
  | u :: rest =>
    if u = 34 then some ([], rest)
    else if u = 92 then
      match rest with
      | [] => none
      | e :: rest2 =>
        if e = 34 ∨ e = 92 ∨ e = 47 then
          (parseStringBody rest2).map (fun r => (e :: r.1, r.2))
        else if e = 98 then
          (parseStringBody rest2).map (fun r => (8 :: r.1, r.2))
        else if e = 102 then
          (parseStringBody rest2).map (fun r => (12 :: r.1, r.2))
        else if e = 110 then
          (parseStringBody rest2).map (fun r => (10 :: r.1, r.2))
        else if e = 114 then
          (parseStringBody rest2).map (fun r => (13 :: r.1, r.2))
        else if e = 116 then
          (parseStringBody rest2).map (fun r => (9 :: r.1, r.2))
        else if e = 117 then
          match rest2 with
          | a :: b :: c :: d :: rest3 =>
            match hexVal a, hexVal b, hexVal c, hexVal d with
            | some ha, some hb, some hc, some hd =>
              (parseStringBody rest3).map
                (fun r => ((((ha * 16 + hb) * 16 + hc) * 16 + hd) :: r.1, r.2))
            | _, _, _, _ => none
          | _ => none
        else none
    else if u < 32 then none
    else (parseStringBody rest).map (fun r => (u :: r.1, r.2))

/-- Strict JSON number lexeme starting at the head of the input; returns the
lexeme and the rest.  Follows the JSON grammar: optional minus, integer part
without leading zeros, optional fraction, optional exponent. -/
def parseNumber (l : List Nat) : Option (List Nat × List Nat) :=
  let signed := match l with
    | 45 :: rest => some ([45], rest)
    | _ => some (([] : List Nat), l)
  match signed with
  | none => none
  | some (sgn, l1) =>
    let intPart : Option (List Nat × List Nat) := match l1 with
      | 48 :: rest =>
        match rest with
        | r :: _ => if isDigitU r then none else some ([48], rest)
        | [] => some ([48], [])
      | u :: _ =>
        if isDigitU u then
          some (l1.takeWhile isDigitU, l1.dropWhile isDigitU)
        else none
      | [] => none
    match intPart with
    | none => none
    | some (ip, l2) =>
      let fracPart : Option (List Nat × List Nat) := match l2 with
        | 46 :: rest =>
          match rest with
          | r :: _ =>
            if isDigitU r then
              some (46 :: rest.takeWhile isDigitU, rest.dropWhile isDigitU)
            else none
          | [] => none
        | _ => some ([], l2)
      match fracPart with
      | none => none
      | some (fp, l3) =>
        let expPart : Option (List Nat × List Nat) := match l3 with
          | e :: rest =>
            if e = 101 ∨ e = 69 then
              let r2 := match rest with
                | s :: rest2 => if s = 43 ∨ s = 45 then ([s], rest2)
                                else (([] : List Nat), rest)
                | [] => (([] : List Nat), ([] : List Nat))
              match r2.2 with
              | d :: _ =>
                if isDigitU d then
                  some (e :: r2.1 ++ r2.2.takeWhile isDigitU,
                        r2.2.dropWhile isDigitU)
                else none
              | [] => none
            else some ([], l3)
          | [] => some ([], l3)
        match expPart with
        | none => none
        | some (ep, l4) => some (sgn ++ ip ++ fp ++ ep, l4)

mutual

/-- Fuel-indexed JSON value at the head of the input (leading whitespace
skipped); returns the value and the rest of the input. -/
def parseValue : Nat → List Nat → Option (JsValue × List Nat)
  | 0, _ => none
  | fuel + 1, l =>
    let l := l.dropWhile jsonWs
    match l with
    | 110 :: 117 :: 108 :: 108 :: rest => some (.null, rest)
    | 116 :: 114 :: 117 :: 101 :: rest => some (.bool true, rest)
    | 102 :: 97 :: 108 :: 115 :: 101 :: rest => some (.bool false, rest)
    | 34 :: rest =>
      (parseStringBody rest).map (fun r => (.str r.1, r.2))
    | 91 :: rest =>
      let rest1 := rest.dropWhile jsonWs
      match rest1 with
      | 93 :: rest2 => some (.arr [], rest2)
      | _ => parseArrayItems fuel rest1 []
    | 123 :: rest =>
      let rest1 := rest.dropWhile jsonWs
      match rest1 with
      | 125 :: rest2 => some (.obj [], rest2)
      | _ => parseObjectItems fuel rest1 []
    | _ => (parseNumber l).map (fun r => (.num r.1, r.2))

/-- Fuel-indexed comma-separated array elements up to the closing bracket. -/
def parseArrayItems : Nat → List Nat → List JsValue →
    Option (JsValue × List Nat)
  | 0, _, _ => none
  | fuel + 1, l, acc =>
    match parseValue fuel l with
    | none => none
    | some (v, rest) =>
      let rest1 := rest.dropWhile jsonWs
      match rest1 with
      | 44 :: rest2 => parseArrayItems fuel rest2 (acc ++ [v])
      | 93 :: rest2 => some (.arr (acc ++ [v]), rest2)
      | _ => none

/-- Fuel-indexed comma-separated object members up to the closing brace. -/
def parseObjectItems : Nat → List Nat → List (List Nat × JsValue) →
    Option (JsValue × List Nat)
  | 0, _, _ => none
  | fuel + 1, l, acc =>
    match l.dropWhile jsonWs with
    | 34 :: rest =>
      match parseStringBody rest with
      | none => none
      | some (key, rest1) =>
        match rest1.dropWhile jsonWs with
        | 58 :: rest2 =>
          match parseValue fuel rest2 with
          | none => none
          | some (v, rest3) =>
            let rest4 := rest3.dropWhile jsonWs
            match rest4 with
            | 44 :: rest5 => parseObjectItems fuel rest5 (acc ++ [(key, v)])
            | 125 :: rest5 => some (.obj (acc ++ [(key, v)]), rest5)
            | _ => none
        | _ => none
    | _ => none

end

/-- Model of `JSON.parse` on a JS string: a complete JSON text with optional
surrounding whitespace, or `none` where `JSON.parse` throws.  The fuel
`2 * length + 2` strictly dominates the recursion depth (at most two nested
calls occur per consumed unit), so it never causes a spurious failure. -/
def jsonParse (l : List Nat) : Option JsValue :=
  match parseValue (2 * l.length + 2) l with
  | some (v, rest) => if rest.dropWhile jsonWs = [] then some v else none
  | none => none

/-! ## JavaScript value inspection -/

/-- Property access on a parsed value: `obj.key` is the value of the last
occurrence of the key (later duplicate keys of `JSON.parse` overwrite
earlier ones); access on a non-object or a missing key is `undefined`,
modelled as `none`. -/
def lookupLast : List (List Nat × JsValue) → List Nat → Option JsValue
  | [], _ => none
  | (k, v) :: rest, key =>
    match lookupLast rest key with
    | some r => some r
    | none => if k = key then some v else none

/-- Property access `j.key` (see `lookupLast`). -/
def JsValue.getField (j : JsValue) (key : List Nat) : Option JsValue :=
  match j with
  | .obj fields => lookupLast fields key
  | _ => none

/-- Truthiness of a mantissa lexeme: a JSON number is falsy exactly when all
its mantissa digits are zero (the exponent cannot change that). -/
def numIsZero (lexeme : List Nat) : Bool :=
  ((lexeme.takeWhile (fun u => u ≠ 101 && u ≠ 69)).filter isDigitU).all
    (fun u => u = 48)

/-- JavaScript truthiness of a parsed value. -/
def JsValue.truthy : JsValue → Bool
  | .null => false
  | .bool b => b
  | .num lexeme => !numIsZero lexeme
  | .str s => !s.isEmpty
  | .arr _ => true
  | .obj _ => true

/-- Truthiness of a possibly-undefined value (`undefined` is falsy). -/
def jsTruthy : Option JsValue → Bool
  | none => false
  | some v => v.truthy

/-- Strict-equality test `j.field === "s"` for a string literal: true only
when the property is present and is exactly that string. -/
def fieldIs (j : JsValue) (key s : List Nat) : Bool :=
  match j.getField key with
  | some (.str t) => t = s
  | _ => false

/-- Comma-joined rendering used by `Array.prototype.toString`. -/
def joinCommaSep : List (List Nat) → List Nat
  | [] => []
  | [x] => x
  | x :: xs => x ++ 44 :: joinCommaSep xs

mutual

/-- Model of the JavaScript `String()` coercion applied by `+=` to a delta
payload.  String, boolean, null, array and object cases follow ECMAScript
exactly; a number renders as its source lexeme (adequate here: the pipeline
only ever receives string payloads, and the numeric cases are never
exercised by the properties below). -/
def jsToString : JsValue → List Nat
  | .null => uts "null"
  | .bool true => uts "true"
  | .bool false => uts "false"
  | .num lexeme => lexeme
  | .str s => s
  | .arr elems => joinCommaSep (jsToStringList elems)
  | .obj _ => uts "[object Object]"

/-- Array element rendering inside `Array.prototype.toString`: null renders
as the empty string, anything else by the ordinary coercion. -/
def jsToStringElem : JsValue → List Nat
  | .null => []
  | v => jsToString v

/-- Element-wise rendering of an array's members. -/
def jsToStringList : List JsValue → List (List Nat)
  | [] => []
  | v :: vs => jsToStringElem v :: jsToStringList vs

end

/-! ## JavaScript `trim` -/

/-- White-space and line-terminator units removed by
`String.prototype.trim`. -/
def isJsTrimWs (u : Nat) : Bool :=
  u = 9 || u = 10 || u = 11 || u = 12 || u = 13 || u = 32 || u = 160 ||
  u = 0x1680 || (0x2000 ≤ u && u ≤ 0x200A) || u = 0x2028 || u = 0x2029 ||
  u = 0x202F || u = 0x205F || u = 0x3000 || u = 0xFEFF

/-- Model of `line.trim()`. -/
def jsTrim (l : List Nat) : List Nat :=
  ((l.dropWhile isJsTrimWs).reverse.dropWhile isJsTrimWs).reverse

/-! ## Stream events and per-line dispatch

`StreamEvent` is the typed observable a recognized line produces: a delta
(the `onDelta` callback), a done/termination signal (the `return`), or an
error observation (both readers log the error and keep reading: in
`postQueryStream` the `throw new Error(chunk.message || ...)` sits inside
the same `try` whose `catch` swallows parse errors, so it is caught at once
and merely logged; `postQueryStreamSSE` only calls `console.error`). -/

/-- Typed event decoded from a line. -/
inductive StreamEvent where
  | delta (data : JsValue)
  | done
  | error (message : Option JsValue)

/-- Effect of one complete line on the stream. -/
inductive LineResult where
  | skip
  | emitDelta (data : JsValue)
  | emitError (message : Option JsValue)
  | finish

/-- Shared event-shape dispatch on a parsed chunk, common to both framings:
`type === "delta" && data` calls `onDelta(data)`; `type === "error"` is an
error observation (logged, stream continues — see the module comment);
`type === "done"` returns; anything else is ignored. -/
def dispatchChunk (chunk : JsValue) : LineResult :=
  if fieldIs chunk (uts "type") (uts "delta") &&
      jsTruthy (chunk.getField (uts "data")) then
    .emitDelta ((chunk.getField (uts "data")).getD .null)
  else if fieldIs chunk (uts "type") (uts "error") then
    .emitError (chunk.getField (uts "message"))
  else if fieldIs chunk (uts "type") (uts "done") then
    .finish
  else .skip

/-- Line handling of `postQueryStream` (line-JSON framing): a line that
trims to nothing is skipped; otherwise the raw line goes to `JSON.parse`,
whose failure is caught and the line discarded. -/
def ndjsonLine (line : List Nat) : LineResult :=
  if jsTrim line = [] then .skip
  else
    match jsonParse line with
    | none => .skip
    | some chunk => dispatchChunk chunk

/-- Handling of the payload of a `data: `-prefixed line: the literal
sentinel `[DONE]` terminates the stream at once; any other payload goes to
`JSON.parse`, whose failure is caught and the line discarded. -/
def sseDataPayload (jsonStr : List Nat) : LineResult :=
  if jsonStr = uts "[DONE]" then .finish
  else
    match jsonParse jsonStr with
    | none => .skip
    | some chunk => dispatchChunk chunk

/-- Line handling of `postQueryStreamSSE` (field-framed SSE): the trimmed
line is dropped when blank, a `:` comment, or an `event:` line; a
`data: `-prefixed line is unprefixed and handled by `sseDataPayload`; all
other lines are ignored. -/
def sseLine (line : List Nat) : LineResult :=
  let trimmed := jsTrim line
  if trimmed = [] || (uts ":").isPrefixOf trimmed ||
      (uts "event:").isPrefixOf trimmed then .skip
  else if (uts "data: ").isPrefixOf trimmed then
    sseDataPayload (trimmed.drop 6)
  else .skip

/-- Effect of one line's result on the loop accumulator: a recognized delta
or error observation is appended, a termination sets the exit flag. -/
def lineResultStep (res : LineResult) (evs : List StreamEvent) :
    Bool × List StreamEvent :=
  match res with
  | .skip => (false, evs)
  | .emitDelta d => (false, evs ++ [.delta d])
  | .emitError m => (false, evs ++ [.error m])
  | .finish => (true, evs ++ [.done])

/-- Processing of the complete lines of one chunk: the `for` loop over
`lines`, with the flag recording that a `return` has exited the loop (once
the flag is set, later lines leave the accumulator untouched, exactly as
the exited loop never examines them). -/
def decodeLinesAux (dispatch : List Nat → LineResult) :
    Bool × List StreamEvent → List (List Nat) → Bool × List StreamEvent
  | acc, [] => acc
  | (fin, evs), l :: ls =>
    if fin then (fin, evs)
    else decodeLinesAux dispatch (lineResultStep (dispatch l) evs) ls

/-- Events and termination flag produced by a list of complete lines. -/
def decodeLines (dispatch : List Nat → LineResult) (lines : List (List Nat)) :
    Bool × List StreamEvent :=
  decodeLinesAux dispatch (false, []) lines

/-! ## The Frame Decoder over raw chunks -/

/-- Decoder state carried between raw chunks: the streaming text-decode
carry, the retained partial line, and whether the reader has returned
(after a `return` the reader is released and later chunks are never read;
the dead carry state is canonicalized to empty). -/
structure DecState where
  utf8 : Utf8State
  buffer : List Nat
  finished : Bool
deriving DecidableEq, Repr

/-- Initial decoder state of a fresh stream. -/
def DecState.init : DecState := ⟨Utf8State.init, [], false⟩

/-- Feeding one raw chunk through the reader loop body: decode the bytes,
append to the carry buffer, split on newlines keeping the trailing segment,
and process each complete line in order with early exit on termination. -/
def feed (dispatch : List Nat → LineResult) (st : DecState)
    (chunk : List Nat) : DecState × List StreamEvent :=
  if st.finished then (st, [])
  else
    let du := utf8Decode st.utf8 chunk
    let sp := lineSplit (st.buffer ++ du.2)
    let pr := decodeLines dispatch sp.1
    if pr.1 then (⟨Utf8State.init, [], true⟩, pr.2)
    else (⟨du.1, sp.2, false⟩, pr.2)

/-- Feeding a sequence of raw chunks, accumulating all emitted events. -/
def feedAll (dispatch : List Nat → LineResult) :
    DecState × List StreamEvent → List (List Nat) →
    DecState × List StreamEvent
  | acc, [] => acc
  | (st, evs), c :: cs =>
    let r := feed dispatch st c
    feedAll dispatch (r.1, evs ++ r.2) cs

/-- Event sequence produced by a whole partitioned byte stream. -/
def runDecoder (dispatch : List Nat → LineResult)
    (chunks : List (List Nat)) : List StreamEvent :=
  (feedAll dispatch (DecState.init, []) chunks).2

/-- The line-JSON Frame Decoder (`postQueryStream`). -/
def runNDJSON (chunks : List (List Nat)) : List StreamEvent :=
  runDecoder ndjsonLine chunks

/-- The field-framed Frame Decoder (`postQueryStreamSSE`). -/
def runSSE (chunks : List (List Nat)) : List StreamEvent :=
  runDecoder sseLine chunks

/-! ## The Playback Scheduler (`useSmoothTyping`)

State of one hook instance: the rendered content (`displayedContent`), the
mirror `displayedLengthRef`, the enqueue high-water mark
`processedLengthRef`, the backlog `queueRef` (individual UTF-16 units, as
produced by `split('')`), the `isFirstRender` ref and the `animatingRef`
flag.  The effect body is `updateTyping`; every execution of the
`renderLoop` body — the synchronous call at the end of the effect as well
as each `requestAnimationFrame` callback — is one `renderTick`.  Sequences
of these two steps over-approximate every schedule the browser can
produce. -/

/-- Mutable state of one `useSmoothTyping` instance. -/
structure TypingState where
  displayed : List Nat
  displayedLength : Nat
  processedLength : Nat
  queue : List Nat
  isFirstRender : Bool
  animating : Bool
deriving DecidableEq, Repr

/-- State of a freshly mounted hook. -/
def TypingState.init : TypingState := ⟨[], 0, 0, [], true, false⟩

/-- Four-tier drain-rate policy: units consumed per tick as a function of
the current backlog length. -/
def consumeCount (queueLength : Nat) : Nat :=
  if queueLength > 200 then 20
  else if queueLength > 50 then 5
  else if queueLength > 10 then 2
  else 1

/-- One execution of the `renderLoop` body: an empty queue stops the loop;
otherwise a batch of `consumeCount` units is spliced off the front of the
queue and appended to the displayed content. -/
def renderTick (st : TypingState) : TypingState :=
  if st.queue.isEmpty then { st with animating := false }
  else
    let n := consumeCount st.queue.length
    let next := st.displayed ++ st.queue.take n
    { st with
      queue := st.queue.drop n
      displayed := next
      displayedLength := next.length
      animating := true }

/-- Steps 1–2 of the effect body after the first-render bookkeeping: the
newly arrived suffix beyond `processedLengthRef` is enqueued, a shorter
target resets everything, an unchanged length does nothing. -/
def updateEnqueue (st : TypingState) (targetContent : List Nat) :
    TypingState :=
  let prevProcessedLen := st.processedLength
  let nextLen := targetContent.length
  if nextLen > prevProcessedLen then
    { st with
      queue := st.queue ++ targetContent.drop prevProcessedLen
      processedLength := nextLen }
  else if nextLen < prevProcessedLen then
    { st with
      displayed := targetContent
      displayedLength := nextLen
      processedLength := nextLen
      queue := [] }
  else st

/-- One run of the `useSmoothTyping` effect body for a new
`(targetContent, isThinking)` pair: on the very first run a non-empty
target that is not generating is displayed whole and the effect returns;
otherwise the new suffix is enqueued (or a regression resets the state). -/
def updateTyping (st : TypingState) (targetContent : List Nat)
    (isThinking : Bool) : TypingState :=
  if st.isFirstRender then
    let st1 := { st with isFirstRender := false }
    if targetContent.length > 0 && !isThinking then
      { st1 with
        displayed := targetContent
        displayedLength := targetContent.length
        processedLength := targetContent.length }
    else updateEnqueue st1 targetContent
  else updateEnqueue st targetContent

/-- Observable scheduler step: an effect run or one render-loop tick. -/
inductive SchedOp where
  | upd (targetContent : List Nat) (isThinking : Bool)
  | tick

/-- Apply one scheduler step. -/
def schedStep (st : TypingState) : SchedOp → TypingState
  | .upd t b => updateTyping st t b
  | .tick => renderTick st

/-- Run a sequence of scheduler steps from a state. -/
def schedRun (st : TypingState) : List SchedOp → TypingState
  | [] => st
  | op :: ops => schedRun (schedStep st op) ops

/-- Decidable statement that every effect run in the sequence happens under
active generation (`isThinking = true`) and extends the previously received
content, starting from `cur` — the monotone-growth discipline of an
in-flight message. -/
def growingFrom (cur : List Nat) : List SchedOp → Bool
  | [] => true
  | .tick :: ops => growingFrom cur ops
  | .upd t b :: ops => cur.isPrefixOf t && b && growingFrom t ops

/-- Content received by the end of the step sequence (the last target). -/
def lastTarget (cur : List Nat) : List SchedOp → List Nat
  | [] => cur
  | .tick :: ops => lastTarget cur ops
  | .upd t _ :: ops => lastTarget t ops

/-! ## The Session Orchestrator

`handleSend` of `ChatContainer.tsx` (SSE variant, with cancellation) and of
the older line-JSON `ChatContainer` variant (with the non-streaming
fallback).  The transport boundary is abstracted by the list of delta
payloads delivered to `onDelta` before the stream call settled, plus how it
settled: resolved normally, rejected with the `AbortError` of a
user-initiated cancellation, or rejected with another error. -/

/-- How the streaming request settled. -/
inductive StreamEnding where
  | normal
  | abortError
  | failed (message : List Nat)

/-- Synchronous response shape of the non-streaming `/query` endpoint. -/
structure QueryResponse where
  answer : List Nat
  output : Option (List Nat)

/-- Answer extraction `res.answer || res.output || ""` of the fallback
path: the answer when truthy, else the output when present and truthy,
else the empty string. -/
def answerOrOutput (r : QueryResponse) : List Nat :=
  if r.answer ≠ [] then r.answer
  else match r.output with
    | some o => if o ≠ [] then o else []
    | none => []

/-- Observable outcome of one `handleSend` session of the SSE
`ChatContainer`: the final content of the target assistant message, its
`thinking` flag, the container's `isGenerating` flag, how many times the
non-streaming `/query` endpoint was called (the SSE variant never calls
it), and whether a failure message was formatted in place of the content. -/
structure SseOutcome where
  content : List Nat
  thinking : Bool
  generating : Bool
  fallbackCalls : Nat
  failureShown : Bool
deriving DecidableEq, Repr

/-- Accumulated text of the delta payloads: each `onDelta(delta)` performs
`accumulatedContent += delta`. -/
def deltasText (deltas : List JsValue) : List Nat :=
  match deltas with
  | [] => []
  | d :: ds => jsToString d ++ deltasText ds

/-- Session logic of `handleSend` in `ChatContainer.tsx`: deltas accumulate
into the message (clearing `thinking` on the first one); a normally
resolved stream with no accumulated content throws, and the catch replaces
the content with a failure message; an `AbortError` from cancellation only
clears `thinking`; any other rejection becomes a failure message; the
`finally` always clears `isGenerating`.  No fallback request exists in this
variant. -/
def handleSendSSE (deltas : List JsValue) (ending : StreamEnding) :
    SseOutcome :=
  let acc := deltasText deltas
  match ending with
  | .normal =>
    if acc = [] then
      ⟨uts "请求失败：流式输出未收到任何内容", false, false, 0, true⟩
    else ⟨acc, false, false, 0, false⟩
  | .abortError => ⟨acc, false, false, 0, false⟩
  | .failed m => ⟨uts "请求失败：" ++ m, false, false, 0, true⟩

/-- End-to-end SSE session on a partitioned response byte stream that
resolves normally: the Frame Decoder produces the events, whose delta
payloads drive `onDelta`. -/
def sseSession (chunks : List (List Nat)) : SseOutcome :=
  handleSendSSE
    ((runSSE chunks).filterMap fun e =>
      match e with
      | .delta d => some d
      | _ => none)
    .normal

/-- Observable outcome of one `handleSend` session of the older line-JSON
`ChatContainer` variant. -/
structure LegacyOutcome where
  content : List Nat
  thinking : Bool
  fallbackCalls : Nat
  failureShown : Bool
deriving DecidableEq, Repr

/-- Session logic of `handleSend` in the older `ChatContainer` variant:
a stream that resolves with accumulated content finishes the session; a
stream that resolves with no content, or that rejects, falls back to one
non-streaming `postQuery` request whose `answer || output || ""` becomes
the content (the model assumes the fallback request itself succeeds). -/
def handleSendLegacy (deltas : List JsValue) (ending : StreamEnding)
    (fallback : QueryResponse) : LegacyOutcome :=
  let acc := deltasText deltas
  match ending with
  | .normal =>
    if acc ≠ [] then ⟨acc, false, 0, false⟩
    else ⟨answerOrOutput fallback, false, 1, false⟩
  | .abortError => ⟨answerOrOutput fallback, false, 1, false⟩
  | .failed _ => ⟨answerOrOutput fallback, false, 1, false⟩

/-- End-to-end legacy session on a partitioned line-JSON response byte
stream that resolves normally. -/
def legacySession (chunks : List (List Nat)) (fallback : QueryResponse) :
    LegacyOutcome :=
  handleSendLegacy
    ((runNDJSON chunks).filterMap fun e =>
      match e with
      | .delta d => some d
      | _ => none)
    .normal fallback

/-! ## Composition lemmas for the Frame Decoder -/

theorem utf8DecodeAux_append (bs1 : List Nat) :
    ∀ (s : Utf8State) (out bs2 : List Nat),
    utf8DecodeAux (s, out) (bs1 ++ bs2) =
      utf8DecodeAux (utf8DecodeAux (s, out) bs1) bs2 := by
  induction bs1 with
  | nil => intro s out bs2; rfl
  | cons b bs ih =>
    intro s out bs2
    simp only [List.cons_append, utf8DecodeAux]
    exact ih _ _ _

theorem utf8DecodeAux_factor (bs : List Nat) :
    ∀ (s : Utf8State) (out : List Nat),
    utf8DecodeAux (s, out) bs =
      ((utf8DecodeAux (s, []) bs).1, out ++ (utf8DecodeAux (s, []) bs).2) := by
  induction bs with
  | nil => intro s out; simp [utf8DecodeAux]
  | cons b bs ih =>
    intro s out
    simp only [utf8DecodeAux]
    rw [ih ((utf8Step s b).1) (out ++ (utf8Step s b).2),
        ih ((utf8Step s b).1) ([] ++ (utf8Step s b).2)]
    simp [List.append_assoc]

theorem utf8Decode_append (s : Utf8State) (c1 c2 : List Nat) :
    utf8Decode s (c1 ++ c2) =
      ((utf8Decode (utf8Decode s c1).1 c2).1,
       (utf8Decode s c1).2 ++ (utf8Decode (utf8Decode s c1).1 c2).2) := by
  unfold utf8Decode
  rw [utf8DecodeAux_append]
  rcases h1 : utf8DecodeAux (s, []) c1 with ⟨u1, t1⟩
  rw [utf8DecodeAux_factor c2 u1 t1]

theorem lineSplitAux_append (t1 : List Nat) :
    ∀ (acc : List (List Nat) × List Nat) (t2 : List Nat),
    lineSplitAux acc (t1 ++ t2) = lineSplitAux (lineSplitAux acc t1) t2 := by
  induction t1 with
  | nil => intro acc t2; rfl
  | cons u us ih =>
    intro acc t2
    simp only [List.cons_append, lineSplitAux]
    exact ih _ _

theorem lineSplitAux_factor (t : List Nat) :
    ∀ (ls : List (List Nat)) (cur : List Nat),
    lineSplitAux (ls, cur) t =
      (ls ++ (lineSplitAux ([], cur) t).1, (lineSplitAux ([], cur) t).2) := by
  induction t with
  | nil => intro ls cur; simp [lineSplitAux]
  | cons u us ih =>
    intro ls cur
    have hstep : lineStep (ls, cur) u =
        (ls ++ (lineStep ([], cur) u).1, (lineStep ([], cur) u).2) := by
      simp only [lineStep]
      by_cases h : u = 10 <;> simp [h]
    simp only [lineSplitAux]
    rw [hstep]
    rcases hp : lineStep ([], cur) u with ⟨p1, p2⟩
    rw [ih (ls ++ p1) p2, ih p1 p2]
    simp [List.append_assoc]

theorem lineSplitAux_rem_no_newline (t : List Nat) :
    ∀ (ls : List (List Nat)) (cur : List Nat), 10 ∉ cur →
    10 ∉ (lineSplitAux (ls, cur) t).2 := by
  induction t with
  | nil => intro ls cur h; simpa [lineSplitAux] using h
  | cons u us ih =>
    intro ls cur h
    by_cases hu : u = 10
    · subst hu
      simp only [lineSplitAux, lineStep, if_pos rfl]
      exact ih _ [] (by simp)
    · simp only [lineSplitAux, lineStep, if_neg hu]
      refine ih _ _ ?_
      simp only [List.mem_append, List.mem_singleton]
      rintro (hc | hc)
      · exact h hc
      · exact hu hc.symm

theorem lineSplitAux_no_newline_run (r : List Nat) :
    ∀ (ls : List (List Nat)) (cur : List Nat), 10 ∉ r →
    lineSplitAux (ls, cur) r = (ls, cur ++ r) := by
  induction r with
  | nil => intro ls cur _; simp [lineSplitAux]
  | cons u us ih =>
    intro ls cur h
    have hu : u ≠ 10 := fun hc => h (by simp [hc])
    simp only [lineSplitAux, lineStep, if_neg hu]
    rw [ih ls (cur ++ [u]) (fun hc => h (by simp [hc]))]
    simp

theorem decodeLinesAux_true (d : List Nat → LineResult) :
    ∀ (ls : List (List Nat)) (evs : List StreamEvent),
    decodeLinesAux d (true, evs) ls = (true, evs) := by
  intro ls evs
  cases ls with
  | nil => rfl
  | cons l ls => rfl

theorem lineResultStep_factor (res : LineResult) (evs : List StreamEvent) :
    lineResultStep res evs =
      ((lineResultStep res []).1, evs ++ (lineResultStep res []).2) := by
  cases res <;> simp [lineResultStep]

theorem decodeLinesAux_append (d : List Nat → LineResult)
    (ls1 : List (List Nat)) :
    ∀ (acc : Bool × List StreamEvent) (ls2 : List (List Nat)),
    decodeLinesAux d acc (ls1 ++ ls2) =
      decodeLinesAux d (decodeLinesAux d acc ls1) ls2 := by
  induction ls1 with
  | nil => intro acc ls2; rfl
  | cons l ls ih =>
    intro acc ls2
    rcases acc with ⟨fin, evs⟩
    cases fin with
    | true => rw [decodeLinesAux_true, decodeLinesAux_true, decodeLinesAux_true]
    | false =>
      show decodeLinesAux d (lineResultStep (d l) evs) (ls ++ ls2) =
        decodeLinesAux d (decodeLinesAux d (lineResultStep (d l) evs) ls) ls2
      exact ih _ _

theorem decodeLinesAux_factor (d : List Nat → LineResult)
    (ls : List (List Nat)) :
    ∀ (evs : List StreamEvent),
    decodeLinesAux d (false, evs) ls =
      ((decodeLinesAux d (false, []) ls).1,
       evs ++ (decodeLinesAux d (false, []) ls).2) := by
  induction ls with
  | nil => intro evs; simp [decodeLinesAux]
  | cons l ls ih =>
    intro evs
    show decodeLinesAux d (lineResultStep (d l) evs) ls =
      ((decodeLinesAux d (lineResultStep (d l) []) ls).1,
       evs ++ (decodeLinesAux d (lineResultStep (d l) []) ls).2)
    rw [lineResultStep_factor (d l) evs]
    rcases hp : lineResultStep (d l) [] with ⟨f1, t1⟩
    cases f1 with
    | true =>
      rw [decodeLinesAux_true, decodeLinesAux_true]
    | false =>
      rw [ih (evs ++ t1), ih t1]
      simp [List.append_assoc]

theorem lineSplit_rem_no_newline (t : List Nat) : 10 ∉ (lineSplit t).2 :=
  lineSplitAux_rem_no_newline t [] [] (by simp)

theorem feed_finished (d : List Nat → LineResult) (st : DecState)
    (c : List Nat) (h : st.finished = true) : feed d st c = (st, []) := by
  simp [feed, h]

theorem feed_nil (d : List Nat → LineResult) (st : DecState)
    (hbuf : 10 ∉ st.buffer) : feed d st [] = (st, []) := by
  by_cases hfin : st.finished
  · simp [feed, hfin]
  · simp only [feed, hfin, if_neg, Bool.false_eq_true, if_false]
    have h1 : utf8Decode st.utf8 [] = (st.utf8, []) := rfl
    rw [h1]
    have h2 : lineSplit (st.buffer ++ []) = ([], st.buffer) := by
      rw [List.append_nil]
      exact lineSplitAux_no_newline_run st.buffer [] [] hbuf
    rw [h2]
    have h3 : decodeLines d [] = (false, []) := rfl
    rw [h3]
    simp only [if_neg, Bool.false_eq_true, if_false]
    rcases st with ⟨su, sb, sf⟩
    simp at hfin
    simp [hfin]

theorem feed_buffer_no_newline (d : List Nat → LineResult) (st : DecState)
    (c : List Nat) (hbuf : 10 ∉ st.buffer) :
    10 ∉ (feed d st c).1.buffer := by
  by_cases hfin : st.finished
  · simp only [feed, hfin, if_true]
    exact hbuf
  · simp only [feed, hfin, Bool.false_eq_true, if_false]
    by_cases hp : (decodeLines d (lineSplit (st.buffer ++
        (utf8Decode st.utf8 c).2)).1).1
    · simp [hp]
    · simp only [hp, Bool.false_eq_true, if_false]
      exact lineSplit_rem_no_newline _

theorem feed_append (d : List Nat → LineResult) (st : DecState)
    (c1 c2 : List Nat) :
    feed d st (c1 ++ c2) =
      ((feed d (feed d st c1).1 c2).1,
       (feed d st c1).2 ++ (feed d (feed d st c1).1 c2).2) := by
  by_cases hfin : st.finished
  · simp [feed, hfin]
  · rcases hA : utf8Decode st.utf8 c1 with ⟨u1, t1⟩
    rcases hB : utf8Decode u1 c2 with ⟨u2, t2⟩
    have hAB : utf8Decode st.utf8 (c1 ++ c2) = (u2, t1 ++ t2) := by
      rw [utf8Decode_append, hA, hB]
    rcases hS1 : lineSplit (st.buffer ++ t1) with ⟨ls1, r1⟩
    have hr1 : 10 ∉ r1 := by
      have h := lineSplit_rem_no_newline (st.buffer ++ t1)
      rw [hS1] at h
      exact h
    rcases hS2 : lineSplit (r1 ++ t2) with ⟨ls2, r2⟩
    have hS12 : lineSplit (st.buffer ++ (t1 ++ t2)) = (ls1 ++ ls2, r2) := by
      show lineSplitAux ([], []) (st.buffer ++ (t1 ++ t2)) = (ls1 ++ ls2, r2)
      rw [← List.append_assoc, lineSplitAux_append]
      have hS1A : lineSplitAux ([], []) (st.buffer ++ t1) = (ls1, r1) := hS1
      rw [hS1A, lineSplitAux_factor t2 ls1 r1]
      have h0 : lineSplitAux ([], []) (r1 ++ t2) = (ls2, r2) := hS2
      rw [lineSplitAux_append, lineSplitAux_no_newline_run r1 [] [] hr1]
        at h0
      simp only [List.nil_append] at h0
      rw [h0]
    rcases hP1 : decodeLinesAux d (false, []) ls1 with ⟨f1, e1⟩
    rcases hP2 : decodeLinesAux d (false, []) ls2 with ⟨f2, e2⟩
    cases f1 with
    | true =>
      have hfeed1 : feed d st c1 = (⟨Utf8State.init, [], true⟩, e1) := by
        simp only [feed, hfin, Bool.false_eq_true, if_false, decodeLines]
        rw [hA]
        simp only
        rw [hS1]
        simp only
        rw [hP1]
        simp
      have hP12 : decodeLinesAux d (false, []) (ls1 ++ ls2) = (true, e1) := by
        rw [decodeLinesAux_append, hP1, decodeLinesAux_true]
      have hLHS : feed d st (c1 ++ c2) = (⟨Utf8State.init, [], true⟩, e1) := by
        simp only [feed, hfin, Bool.false_eq_true, if_false, decodeLines]
        rw [hAB]
        simp only
        rw [hS12]
        simp only
        rw [hP12]
        simp
      rw [hLHS]
      simp [hfeed1, feed_finished]
    | false =>
      have hfeed1 : feed d st c1 = (⟨u1, r1, false⟩, e1) := by
        simp only [feed, hfin, Bool.false_eq_true, if_false, decodeLines]
        rw [hA]
        simp only
        rw [hS1]
        simp only
        rw [hP1]
        simp
      have hP12 : decodeLinesAux d (false, []) (ls1 ++ ls2) = (f2, e1 ++ e2) := by
        rw [decodeLinesAux_append, hP1, decodeLinesAux_factor, hP2]
      have hfeed2 : feed d ⟨u1, r1, false⟩ c2 =
          (if f2 then (⟨Utf8State.init, [], true⟩ : DecState)
           else ⟨u2, r2, false⟩, e2) := by
        simp only [feed, Bool.false_eq_true, if_false, decodeLines]
        rw [hB]
        simp only
        rw [hS2]
        simp only
        rw [hP2]
        cases f2 <;> simp
      have hLHS : feed d st (c1 ++ c2) =
          (if f2 then (⟨Utf8State.init, [], true⟩ : DecState)
           else ⟨u2, r2, false⟩, e1 ++ e2) := by
        simp only [feed, hfin, Bool.false_eq_true, if_false, decodeLines]
        rw [hAB]
        simp only
        rw [hS12]
        simp only
        rw [hP12]
        cases f2 <;> simp
      rw [hLHS]
      simp [hfeed1, hfeed2]

theorem feedAll_flatten (d : List Nat → LineResult) :
    ∀ (cs : List (List Nat)) (st : DecState) (evs : List StreamEvent),
    10 ∉ st.buffer →
    feedAll d (st, evs) cs =
      ((feed d st cs.flatten).1, evs ++ (feed d st cs.flatten).2) := by
  intro cs
  induction cs with
  | nil =>
    intro st evs hbuf
    simp only [List.flatten_nil, feed_nil d st hbuf, feedAll]
    simp
  | cons c cs ih =>
    intro st evs hbuf
    simp only [feedAll]
    rw [ih (feed d st c).1 (evs ++ (feed d st c).2)
        (feed_buffer_no_newline d st c hbuf)]
    rw [List.flatten_cons, feed_append d st c cs.flatten]
    simp [List.append_assoc]

theorem runDecoder_flatten (d : List Nat → LineResult)
    (chunks : List (List Nat)) :
    runDecoder d chunks = (feed d DecState.init chunks.flatten).2 := by
  unfold runDecoder
  rw [feedAll_flatten d chunks DecState.init [] (by simp [DecState.init])]
  simp

/-! ## Claim C1: chunk-boundary independence -/

/-- C1.  Chunk-boundary independence of the Frame Decoder: any two
partitions of the same underlying byte stream into raw chunks — in
particular any partition against the unsplit stream, including partitions
that cut mid-line, mid-JSON-token, or inside a multibyte UTF-8 character —
produce the identical sequence of `StreamEvent`s (and hence identical
`onDelta` call sequences) through both `postQueryStream` and
`postQueryStreamSSE`. -/
theorem chunk_boundary_independence (p1 p2 : List (List Nat))
    (h : p1.flatten = p2.flatten) :
    runNDJSON p1 = runNDJSON p2 ∧ runSSE p1 = runSSE p2 := by
  constructor
  · unfold runNDJSON
    rw [runDecoder_flatten, runDecoder_flatten, h]
  · unfold runSSE
    rw [runDecoder_flatten, runDecoder_flatten, h]

/-- Reference line-JSON byte stream of the spec's concrete scenario, with a
multibyte character included in the second delta. -/
def scenarioBytes : List Nat :=
  utf8Encode "\x7b\"type\":\"delta\",\"data\":\"Hi\"\x7d\n\x7b\"type\":\"delta\",\"data\":\"好 there\"\x7d\n\x7b\"type\":\"done\"\x7d\n"

/-- Partition of `scenarioBytes` cutting inside the three-byte character
`好` (bytes 53–55) and inside the word `there`. -/
def scenarioSplit : List (List Nat) :=
  [scenarioBytes.take 54, (scenarioBytes.drop 54).take 6,
   scenarioBytes.drop 60]

theorem chunk_boundary_independence_witness :
    ([scenarioBytes] : List (List Nat)).flatten = scenarioSplit.flatten ∧
    (runNDJSON [scenarioBytes] = runNDJSON scenarioSplit ∧
     runSSE [scenarioBytes] = runSSE scenarioSplit) :=
  ⟨by decide, chunk_boundary_independence [scenarioBytes] scenarioSplit
    (by decide)⟩

/-! ## Scheduler invariants -/

/-- Coupling invariant of one scheduler instance with the content received
so far (`cur`): the backlog queue holds exactly the received-but-undisplayed
suffix, the processed-length counter equals the received length, and the
displayed-length mirror is accurate. -/
def SchedInv (st : TypingState) (cur : List Nat) : Prop :=
  st.displayed ++ st.queue = cur ∧ st.processedLength = cur.length ∧
  st.displayedLength = st.displayed.length

theorem updateEnqueue_inv (st : TypingState) (cur t : List Nat)
    (h : SchedInv st cur) (hpre : cur <+: t) :
    SchedInv (updateEnqueue st t) t := by
  obtain ⟨hd, hp, hl⟩ := h
  have hle : cur.length ≤ t.length := hpre.length_le
  by_cases hgt : t.length > st.processedLength
  · obtain ⟨s, rfl⟩ := hpre
    simp only [updateEnqueue]
    rw [if_pos hgt]
    refine ⟨?_, rfl, hl⟩
    show st.displayed ++ (st.queue ++ (cur ++ s).drop st.processedLength) =
      cur ++ s
    rw [hp, List.drop_left, ← List.append_assoc, hd]
  · have heq : t = cur := by
      apply (List.IsPrefix.eq_of_length hpre ?_).symm
      omega
    subst heq
    have h1 : ¬ (t.length > st.processedLength) := hgt
    have h2 : ¬ (t.length < st.processedLength) := by omega
    simp only [updateEnqueue, if_neg h1, if_neg h2]
    exact ⟨hd, hp, hl⟩

theorem updateTyping_inv (st : TypingState) (cur t : List Nat)
    (h : SchedInv st cur) (hpre : cur <+: t) :
    SchedInv (updateTyping st t true) t := by
  by_cases hf : st.isFirstRender
  · have hred : updateTyping st t true =
        updateEnqueue { st with isFirstRender := false } t := by
      simp [updateTyping, hf]
    rw [hred]
    refine updateEnqueue_inv _ cur t ?_ hpre
    exact h
  · have hred : updateTyping st t true = updateEnqueue st t := by
      simp [updateTyping, hf]
    rw [hred]
    exact updateEnqueue_inv st cur t h hpre

theorem renderTick_inv (st : TypingState) (cur : List Nat)
    (h : SchedInv st cur) : SchedInv (renderTick st) cur := by
  obtain ⟨hd, hp, hl⟩ := h
  cases hq : st.queue with
  | nil =>
    have hb : st.queue.isEmpty = true := by rw [hq]; rfl
    simp only [renderTick, hb, if_true]
    exact ⟨hd, hp, hl⟩
  | cons a q =>
    have hb : st.queue.isEmpty = false := by rw [hq]; rfl
    simp only [renderTick, hb, Bool.false_eq_true, if_false]
    refine ⟨?_, hp, rfl⟩
    show (st.displayed ++ st.queue.take _) ++ st.queue.drop _ = cur
    rw [List.append_assoc, List.take_append_drop, hd]

theorem schedRun_inv : ∀ (ops : List SchedOp) (st : TypingState)
    (cur : List Nat), SchedInv st cur → growingFrom cur ops = true →
    SchedInv (schedRun st ops) (lastTarget cur ops) := by
  intro ops
  induction ops with
  | nil => intro st cur h _; exact h
  | cons op ops ih =>
    intro st cur h hg
    cases op with
    | tick =>
      exact ih (renderTick st) cur (renderTick_inv st cur h) hg
    | upd t b =>
      simp only [growingFrom, Bool.and_eq_true] at hg
      obtain ⟨⟨hpre, hb⟩, hg⟩ := hg
      have hpre2 : cur <+: t := List.isPrefixOf_iff_prefix.mp hpre
      subst hb
      exact ih (updateTyping st t true) t
        (updateTyping_inv st cur t h hpre2) hg

theorem growingFrom_lastTarget : ∀ (ops : List SchedOp) (cur : List Nat),
    growingFrom cur ops = true → cur <+: lastTarget cur ops := by
  intro ops
  induction ops with
  | nil => intro cur _; exact List.prefix_refl cur
  | cons op ops ih =>
    intro cur hg
    cases op with
    | tick => exact ih cur hg
    | upd t b =>
      simp only [growingFrom, Bool.and_eq_true] at hg
      obtain ⟨⟨hpre, _⟩, hg⟩ := hg
      exact (List.isPrefixOf_iff_prefix.mp hpre).trans (ih t hg)

theorem growingFrom_take : ∀ (ops : List SchedOp) (cur : List Nat) (k : Nat),
    growingFrom cur ops = true → growingFrom cur (ops.take k) = true := by
  intro ops
  induction ops with
  | nil => intro cur k _; simp [growingFrom]
  | cons op ops ih =>
    intro cur k hg
    cases k with
    | zero => rfl
    | succ k =>
      cases op with
      | tick =>
        show growingFrom cur (ops.take k) = true
        exact ih cur k hg
      | upd t b =>
        simp only [growingFrom, Bool.and_eq_true] at hg ⊢
        exact ⟨hg.1, ih t k hg.2⟩

theorem lastTarget_take_pre : ∀ (ops : List SchedOp) (cur : List Nat)
    (k : Nat), growingFrom cur ops = true →
    lastTarget cur (ops.take k) <+: lastTarget cur ops := by
  intro ops
  induction ops with
  | nil =>
    intro cur k _
    rw [List.take_nil]
  | cons op ops ih =>
    intro cur k hg
    cases k with
    | zero => exact growingFrom_lastTarget (op :: ops) cur hg
    | succ k =>
      cases op with
      | tick => exact ih cur k hg
      | upd t b =>
        simp only [growingFrom, Bool.and_eq_true] at hg
        exact ih t k hg.2

/-! ## Claim C2: monotone display prefix -/

/-- C2.  Monotone display of the Playback Scheduler: along any step
sequence whose effect runs happen under `isThinking = true` with
(weakly, hence in particular strictly) growing target content, the
displayed content after any number `k` of steps is a prefix of the final
target, and once the backlog queue has fully drained the displayed content
equals the final target.  Characters are dequeued FIFO and appended, never
invented or reordered: displayed content plus pending queue always equals
the received content exactly. -/
theorem monotone_display (ops : List SchedOp) (k : Nat)
    (h : growingFrom [] ops = true) :
    (schedRun TypingState.init (ops.take k)).displayed <+:
      lastTarget [] ops ∧
    ((schedRun TypingState.init ops).queue = [] →
      (schedRun TypingState.init ops).displayed = lastTarget [] ops) := by
  have hinit : SchedInv TypingState.init [] := ⟨rfl, rfl, rfl⟩
  constructor
  · have hinv := schedRun_inv (ops.take k) TypingState.init []
      hinit (growingFrom_take ops [] k h)
    have hdq : (schedRun TypingState.init (ops.take k)).displayed <+:
        lastTarget [] (ops.take k) := ⟨_, hinv.1⟩
    exact hdq.trans (lastTarget_take_pre ops [] k h)
  · intro hq
    have hinv := schedRun_inv ops TypingState.init [] hinit h
    have hd := hinv.1
    rw [hq, List.append_nil] at hd
    exact hd

/-- Concrete step sequence: two growing updates interleaved with render
ticks, enough ticks to drain the queue. -/
def scenarioOps : List SchedOp :=
  [.upd (uts "Hi") true, .tick, .upd (uts "Hi there") true,
   .tick, .tick, .tick, .tick, .tick, .tick, .tick]

theorem monotone_display_witness :
    growingFrom [] scenarioOps = true ∧
    ((schedRun TypingState.init (scenarioOps.take 3)).displayed <+:
       lastTarget [] scenarioOps ∧
     ((schedRun TypingState.init scenarioOps).queue = [] →
       (schedRun TypingState.init scenarioOps).displayed =
         lastTarget [] scenarioOps)) :=
  ⟨by decide, monotone_display scenarioOps 3 (by decide)⟩

/-! ## Claim C3: four-tier drain-rate policy -/

theorem renderTick_queue_len (st : TypingState) :
    (renderTick st).queue.length =
      st.queue.length - consumeCount st.queue.length := by
  cases hq : st.queue with
  | nil =>
    have hb : st.queue.isEmpty = true := by rw [hq]; rfl
    simp [renderTick, hb, hq, consumeCount]
  | cons a q =>
    have hb : st.queue.isEmpty = false := by rw [hq]; rfl
    simp [renderTick, hb, hq, List.length_drop]

theorem renderTick_displayed_len (st : TypingState) :
    (renderTick st).displayed.length = st.displayed.length +
      min (consumeCount st.queue.length) st.queue.length := by
  cases hq : st.queue with
  | nil =>
    have hb : st.queue.isEmpty = true := by rw [hq]; rfl
    simp [renderTick, hb, hq]
  | cons a q =>
    have hb : st.queue.isEmpty = false := by rw [hq]; rfl
    simp [renderTick, hb, hq, List.length_take]

theorem consumeCount_mono (a b : Nat) (hab : a ≤ b) :
    consumeCount a ≤ consumeCount b := by
  simp only [consumeCount]
  split_ifs <;> omega

/-- Queue-length evolution of one drain tick. -/
def drainStep (q : Nat) : Nat := q - consumeCount q

theorem renderTick_iterate_queue_len (n : Nat) :
    ∀ (st : TypingState),
    (renderTick^[n] st).queue.length = drainStep^[n] st.queue.length := by
  induction n with
  | zero => intro st; rfl
  | succ n ih =>
    intro st
    rw [Function.iterate_succ_apply, Function.iterate_succ_apply, ih]
    have : (renderTick st).queue.length = drainStep st.queue.length :=
      renderTick_queue_len st
    rw [this]

/-- C3.  Four-tier drain-rate policy: one tick consumes exactly 20 units
above 200 queued, 5 in 51–200, 2 in 11–50 and 1 in 1–10; per-tick
consumption is monotone in the queue length; and a 500-unit backlog with no
further arrivals is fully drained after
`⌈(500-200)/20⌉ + ⌈(200-50)/5⌉ + ⌈(50-10)/2⌉ + 10 = 75` ticks. -/
theorem drain_rate_policy (a b : Nat) (hab : a ≤ b)
    (stA stB stC stD stE : TypingState)
    (hA : 200 < stA.queue.length)
    (hB : 50 < stB.queue.length ∧ stB.queue.length ≤ 200)
    (hC : 10 < stC.queue.length ∧ stC.queue.length ≤ 50)
    (hD : 0 < stD.queue.length ∧ stD.queue.length ≤ 10)
    (hE : stE.queue.length = 500) :
    consumeCount a ≤ consumeCount b ∧
    ((renderTick stA).queue.length = stA.queue.length - 20 ∧
     (renderTick stA).displayed.length = stA.displayed.length + 20) ∧
    ((renderTick stB).queue.length = stB.queue.length - 5 ∧
     (renderTick stB).displayed.length = stB.displayed.length + 5) ∧
    ((renderTick stC).queue.length = stC.queue.length - 2 ∧
     (renderTick stC).displayed.length = stC.displayed.length + 2) ∧
    ((renderTick stD).queue.length = stD.queue.length - 1 ∧
     (renderTick stD).displayed.length = stD.displayed.length + 1) ∧
    (renderTick^[(500 - 200 + 20 - 1) / 20 + (200 - 50 + 5 - 1) / 5 +
      (50 - 10 + 2 - 1) / 2 + 10] stE).queue = [] := by
  have hcA : consumeCount stA.queue.length = 20 := by
    simp only [consumeCount]
    split_ifs <;> omega
  have hcB : consumeCount stB.queue.length = 5 := by
    simp only [consumeCount]
    split_ifs <;> omega
  have hcC : consumeCount stC.queue.length = 2 := by
    simp only [consumeCount]
    split_ifs <;> omega
  have hcD : consumeCount stD.queue.length = 1 := by
    simp only [consumeCount]
    split_ifs <;> omega
  refine ⟨consumeCount_mono a b hab, ⟨?_, ?_⟩, ⟨?_, ?_⟩, ⟨?_, ?_⟩,
    ⟨?_, ?_⟩, ?_⟩
  · rw [renderTick_queue_len, hcA]
  · rw [renderTick_displayed_len, hcA]
    omega
  · rw [renderTick_queue_len, hcB]
  · rw [renderTick_displayed_len, hcB]
    omega
  · rw [renderTick_queue_len, hcC]
  · rw [renderTick_displayed_len, hcC]
    omega
  · rw [renderTick_queue_len, hcD]
  · rw [renderTick_displayed_len, hcD]
    omega
  · apply List.eq_nil_of_length_eq_zero
    rw [renderTick_iterate_queue_len, hE]
    decide

/-- A scheduler state with a backlog of `n` queued units. -/
def backlogState (n : Nat) : TypingState :=
  ⟨[], 0, n, List.replicate n 65, false, true⟩

set_option maxRecDepth 100000 in
theorem drain_rate_policy_witness :
    (30 ≤ 300 ∧ 200 < (backlogState 201).queue.length ∧
     (50 < (backlogState 100).queue.length ∧
      (backlogState 100).queue.length ≤ 200) ∧
     (10 < (backlogState 30).queue.length ∧
      (backlogState 30).queue.length ≤ 50) ∧
     (0 < (backlogState 5).queue.length ∧
      (backlogState 5).queue.length ≤ 10) ∧
     (backlogState 500).queue.length = 500) ∧
    (consumeCount 30 ≤ consumeCount 300 ∧
     ((renderTick (backlogState 201)).queue.length =
        (backlogState 201).queue.length - 20 ∧
      (renderTick (backlogState 201)).displayed.length =
        (backlogState 201).displayed.length + 20) ∧
     ((renderTick (backlogState 100)).queue.length =
        (backlogState 100).queue.length - 5 ∧
      (renderTick (backlogState 100)).displayed.length =
        (backlogState 100).displayed.length + 5) ∧
     ((renderTick (backlogState 30)).queue.length =
        (backlogState 30).queue.length - 2 ∧
      (renderTick (backlogState 30)).displayed.length =
        (backlogState 30).displayed.length + 2) ∧
     ((renderTick (backlogState 5)).queue.length =
        (backlogState 5).queue.length - 1 ∧
      (renderTick (backlogState 5)).displayed.length =
        (backlogState 5).displayed.length + 1) ∧
     (renderTick^[(500 - 200 + 20 - 1) / 20 + (200 - 50 + 5 - 1) / 5 +
       (50 - 10 + 2 - 1) / 2 + 10] (backlogState 500)).queue = []) :=
  ⟨by decide,
   drain_rate_policy 30 300 (by decide) (backlogState 201) (backlogState 100)
     (backlogState 30) (backlogState 5) (backlogState 500) (by decide)
     (by decide) (by decide) (by decide) (by decide)⟩

/-! ## Claim C8: history short-circuit -/

/-- C8.  First-observation short-circuit for history: on the very first
effect run of a message whose content is already non-empty and whose
generating flag is not set, the full content is displayed at once — the
backlog queue is empty, the processed-length and displayed-length counters
both equal the content's length, and no render loop is started. -/
theorem history_short_circuit (t : List Nat) (h : t ≠ []) :
    (updateTyping TypingState.init t false).displayed = t ∧
    (updateTyping TypingState.init t false).queue = [] ∧
    (updateTyping TypingState.init t false).processedLength = t.length ∧
    (updateTyping TypingState.init t false).displayedLength = t.length ∧
    (updateTyping TypingState.init t false).animating = false := by
  have hlen : 0 < t.length := List.length_pos.mpr h
  simp [updateTyping, TypingState.init, hlen]

theorem history_short_circuit_witness :
    uts "hello" ≠ [] ∧
    ((updateTyping TypingState.init (uts "hello") false).displayed =
       uts "hello" ∧
     (updateTyping TypingState.init (uts "hello") false).queue = [] ∧
     (updateTyping TypingState.init (uts "hello") false).processedLength =
       (uts "hello").length ∧
     (updateTyping TypingState.init (uts "hello") false).displayedLength =
       (uts "hello").length ∧
     (updateTyping TypingState.init (uts "hello") false).animating = false) :=
  ⟨by decide, history_short_circuit (uts "hello") (by decide)⟩

/-! ## Line-insertion lemmas -/

theorem decodeLinesAux_skip_insert (d : List Nat → LineResult)
    (xs ys : List (List Nat)) (b : List Nat) (hb : d b = .skip)
    (acc : Bool × List StreamEvent) :
    decodeLinesAux d acc (xs ++ b :: ys) =
      decodeLinesAux d acc (xs ++ ys) := by
  rw [decodeLinesAux_append d xs acc (b :: ys),
      decodeLinesAux_append d xs acc ys]
  rcases h2 : decodeLinesAux d acc xs with ⟨fin, evs⟩
  cases fin with
  | true => rw [decodeLinesAux_true, decodeLinesAux_true]
  | false =>
    show decodeLinesAux d (lineResultStep (d b) evs) ys =
      decodeLinesAux d (false, evs) ys
    rw [hb]
    rfl

theorem decodeLinesAux_finish_insert (d : List Nat → LineResult)
    (xs ys : List (List Nat)) (b : List Nat) (hb : d b = .finish)
    (acc : Bool × List StreamEvent) :
    decodeLinesAux d acc (xs ++ b :: ys) =
      decodeLinesAux d acc (xs ++ [b]) := by
  rw [decodeLinesAux_append d xs acc (b :: ys),
      decodeLinesAux_append d xs acc [b]]
  rcases h2 : decodeLinesAux d acc xs with ⟨fin, evs⟩
  cases fin with
  | true => rw [decodeLinesAux_true, decodeLinesAux_true]
  | false =>
    show decodeLinesAux d (lineResultStep (d b) evs) ys =
      decodeLinesAux d (lineResultStep (d b) evs) []
    rw [hb]
    exact decodeLinesAux_true d ys (evs ++ [.done])

/-! ## Event-shape dispatch lemmas -/

theorem fieldIs_true_iff (c : JsValue) (k s : List Nat) :
    fieldIs c k s = true ↔ c.getField k = some (.str s) := by
  unfold fieldIs
  rcases hg : c.getField k with _ | v
  · simp
  · cases v <;> simp

theorem ndjsonLine_skip_of_parse_none (b : List Nat)
    (hb : jsonParse b = none) : ndjsonLine b = .skip := by
  unfold ndjsonLine
  by_cases ht : jsTrim b = []
  · rw [if_pos ht]
  · rw [if_neg ht, hb]

theorem dispatchChunk_skip_of_shape (c : JsValue)
    (h1 : fieldIs c (uts "type") (uts "delta") = false)
    (h2 : fieldIs c (uts "type") (uts "error") = false)
    (h3 : fieldIs c (uts "type") (uts "done") = false) :
    dispatchChunk c = .skip := by
  simp [dispatchChunk, h1, h2, h3]

theorem dispatchChunk_skip_of_empty_delta (c : JsValue)
    (htype : fieldIs c (uts "type") (uts "delta") = true)
    (hdata : c.getField (uts "data") = none ∨
      c.getField (uts "data") = some .null ∨
      c.getField (uts "data") = some (.str [])) :
    dispatchChunk c = .skip := by
  have hget : c.getField (uts "type") = some (.str (uts "delta")) :=
    (fieldIs_true_iff c _ _).mp htype
  have htr : jsTruthy (c.getField (uts "data")) = false := by
    rcases hdata with h | h | h <;> rw [h] <;> rfl
  have herr : fieldIs c (uts "type") (uts "error") = false := by
    unfold fieldIs
    rw [hget]
    rfl
  have hdone : fieldIs c (uts "type") (uts "done") = false := by
    unfold fieldIs
    rw [hget]
    rfl
  simp [dispatchChunk, htr, herr, hdone]

theorem jsonParse_done_sentinel : jsonParse (uts "[DONE]") = none := rfl

theorem sseLine_data (line p : List Nat)
    (h : jsTrim line = uts "data: " ++ p) :
    sseLine line = sseDataPayload p := by
  have hu1 : uts "data: " = [100, 97, 116, 97, 58, 32] := by decide
  have hu2 : uts ":" = [58] := by decide
  have hu3 : uts "event:" = [101, 118, 101, 110, 116, 58] := by decide
  rw [hu1] at h
  simp only [sseLine, h, hu1, hu2, hu3, List.cons_append, List.nil_append]
  have e4 : ([100, 97, 116, 97, 58, 32] : List Nat).isPrefixOf
      (100 :: 97 :: 116 :: 97 :: 58 :: 32 :: p) = true :=
    List.isPrefixOf_iff_prefix.mpr ⟨p, rfl⟩
  have e5 : List.drop 6 (100 :: 97 :: 116 :: 97 :: 58 :: 32 :: p) = p := rfl
  rw [e4, e5]
  simp

/-! ## Claim C6: malformed-line resilience -/

/-- C6.  Malformed-line resilience: a complete line that fails to parse as
JSON, or whose parsed shape matches none of the recognized event types, is
silently discarded — it produces no event (and no exception: line handling
is a total function), and inserting such a line between two lines of the
stream leaves the decoded event sequence unchanged, for the line-JSON
decoder; likewise a `data: ` line whose payload fails to parse is discarded
by the field-framed decoder. -/
theorem malformed_line_resilience (xs ys : List (List Nat))
    (b b2 p : List Nat)
    (hb : jsonParse b = none ∨
      ∃ c, jsonParse b = some c ∧
        fieldIs c (uts "type") (uts "delta") = false ∧
        fieldIs c (uts "type") (uts "error") = false ∧
        fieldIs c (uts "type") (uts "done") = false)
    (hb2 : jsTrim b2 = uts "data: " ++ p) (hp : jsonParse p = none)
    (hpd : p ≠ uts "[DONE]") :
    ndjsonLine b = .skip ∧
    decodeLines ndjsonLine (xs ++ b :: ys) =
      decodeLines ndjsonLine (xs ++ ys) ∧
    sseLine b2 = .skip ∧
    decodeLines sseLine (xs ++ b2 :: ys) = decodeLines sseLine (xs ++ ys) := by
  have hnd : ndjsonLine b = .skip := by
    rcases hb with h | ⟨c, hc, h1, h2, h3⟩
    · exact ndjsonLine_skip_of_parse_none b h
    · unfold ndjsonLine
      by_cases ht : jsTrim b = []
      · rw [if_pos ht]
      · rw [if_neg ht, hc]
        exact dispatchChunk_skip_of_shape c h1 h2 h3
  have hsse : sseLine b2 = .skip := by
    rw [sseLine_data b2 p hb2]
    unfold sseDataPayload
    rw [if_neg hpd, hp]
  exact ⟨hnd, decodeLinesAux_skip_insert ndjsonLine xs ys b hnd _,
    hsse, decodeLinesAux_skip_insert sseLine xs ys b2 hsse _⟩

theorem malformed_line_resilience_witness :
    jsonParse (uts "\x7bbad") = none ∧
    jsTrim (uts "data: \x7bbad") = uts "data: " ++ uts "\x7bbad" ∧
    uts "\x7bbad" ≠ uts "[DONE]" ∧
    (ndjsonLine (uts "\x7bbad") = .skip ∧
     decodeLines ndjsonLine
       ([uts "\x7b\"type\":\"delta\",\"data\":\"Hi\"\x7d"] ++
        uts "\x7bbad" ::
        [uts "\x7b\"type\":\"delta\",\"data\":\" there\"\x7d"]) =
     decodeLines ndjsonLine
       ([uts "\x7b\"type\":\"delta\",\"data\":\"Hi\"\x7d"] ++
        [uts "\x7b\"type\":\"delta\",\"data\":\" there\"\x7d"]) ∧
     sseLine (uts "data: \x7bbad") = .skip ∧
     decodeLines sseLine
       ([uts "\x7b\"type\":\"delta\",\"data\":\"Hi\"\x7d"] ++
        uts "data: \x7bbad" ::
        [uts "\x7b\"type\":\"delta\",\"data\":\" there\"\x7d"]) =
     decodeLines sseLine
       ([uts "\x7b\"type\":\"delta\",\"data\":\"Hi\"\x7d"] ++
        [uts "\x7b\"type\":\"delta\",\"data\":\" there\"\x7d"])) :=
  ⟨rfl, by decide, by decide,
   malformed_line_resilience
     [uts "\x7b\"type\":\"delta\",\"data\":\"Hi\"\x7d"]
     [uts "\x7b\"type\":\"delta\",\"data\":\" there\"\x7d"]
     (uts "\x7bbad") (uts "data: \x7bbad") (uts "\x7bbad")
     (Or.inl rfl) (by decide) rfl (by decide)⟩

/-! ## Claim C7: field-framed line filtering -/

/-- C7.  Field-framed (SSE) line filtering: a blank line, a line whose trim
starts with the comment marker `:`, a line whose trim starts with `event:`,
and any line without the `data: ` prefix are all ignored; a `data: ` line
is unprefixed and its payload parsed as the JSON event shape; and the
literal sentinel line `data: [DONE]` terminates the stream immediately like
a `Done` event — no lines after it are processed. -/
theorem sse_field_filtering (b1 b2 b3 b4 b5 b6 p : List Nat) (c : JsValue)
    (xs ys : List (List Nat))
    (h1 : jsTrim b1 = [])
    (h2 : (uts ":").isPrefixOf (jsTrim b2) = true)
    (h3 : (uts "event:").isPrefixOf (jsTrim b3) = true)
    (h4 : (uts "data: ").isPrefixOf (jsTrim b4) = false)
    (h5 : jsTrim b5 = uts "data: " ++ p) (hp5 : jsonParse p = some c)
    (h6 : jsTrim b6 = uts "data: [DONE]") :
    sseLine b1 = .skip ∧ sseLine b2 = .skip ∧ sseLine b3 = .skip ∧
    sseLine b4 = .skip ∧ sseLine b5 = dispatchChunk c ∧
    sseLine b6 = .finish ∧
    decodeLines sseLine (xs ++ b6 :: ys) =
      decodeLines sseLine (xs ++ [b6]) := by
  have s6 : sseLine b6 = .finish := by
    have h6b : jsTrim b6 = uts "data: " ++ uts "[DONE]" := by
      rw [h6]; decide
    rw [sseLine_data b6 (uts "[DONE]") h6b]
    unfold sseDataPayload
    rw [if_pos rfl]
  refine ⟨?_, ?_, ?_, ?_, ?_, s6,
    decodeLinesAux_finish_insert sseLine xs ys b6 s6 _⟩
  · simp [sseLine, h1]
  · simp [sseLine, h2]
  · simp [sseLine, h3]
  · simp only [sseLine]
    split
    · rfl
    · rw [h4]
      simp
  · rw [sseLine_data b5 p h5]
    unfold sseDataPayload
    have hne : p ≠ uts "[DONE]" := by
      intro he
      rw [he, jsonParse_done_sentinel] at hp5
      exact Option.noConfusion hp5
    rw [if_neg hne, hp5]

theorem sse_field_filtering_witness :
    (jsTrim (uts "   ") = [] ∧
     (uts ":").isPrefixOf (jsTrim (uts ": keep-alive")) = true ∧
     (uts "event:").isPrefixOf (jsTrim (uts "event: message")) = true ∧
     (uts "data: ").isPrefixOf (jsTrim (uts "data:nospace")) = false ∧
     jsTrim (uts "data: \x7b\"type\":\"delta\",\"data\":\"Hi\"\x7d") =
       uts "data: " ++ uts "\x7b\"type\":\"delta\",\"data\":\"Hi\"\x7d" ∧
     jsonParse (uts "\x7b\"type\":\"delta\",\"data\":\"Hi\"\x7d") =
       some (.obj [(uts "type", .str (uts "delta")),
                   (uts "data", .str (uts "Hi"))]) ∧
     jsTrim (uts "data: [DONE]") = uts "data: [DONE]") ∧
    (sseLine (uts "   ") = .skip ∧
     sseLine (uts ": keep-alive") = .skip ∧
     sseLine (uts "event: message") = .skip ∧
     sseLine (uts "data:nospace") = .skip ∧
     sseLine (uts "data: \x7b\"type\":\"delta\",\"data\":\"Hi\"\x7d") =
       dispatchChunk (.obj [(uts "type", .str (uts "delta")),
                            (uts "data", .str (uts "Hi"))]) ∧
     sseLine (uts "data: [DONE]") = .finish ∧
     decodeLines sseLine
       ([uts "data: \x7b\"type\":\"delta\",\"data\":\"Hi\"\x7d"] ++
        uts "data: [DONE]" ::
        [uts "data: \x7b\"type\":\"delta\",\"data\":\"X\"\x7d"]) =
     decodeLines sseLine
       ([uts "data: \x7b\"type\":\"delta\",\"data\":\"Hi\"\x7d"] ++
        [uts "data: [DONE]"])) :=
  ⟨⟨by decide, by decide, by decide, by decide, by decide, rfl, by decide⟩,
   sse_field_filtering (uts "   ") (uts ": keep-alive")
     (uts "event: message") (uts "data:nospace")
     (uts "data: \x7b\"type\":\"delta\",\"data\":\"Hi\"\x7d")
     (uts "data: [DONE]")
     (uts "\x7b\"type\":\"delta\",\"data\":\"Hi\"\x7d")
     (.obj [(uts "type", .str (uts "delta")), (uts "data", .str (uts "Hi"))])
     [uts "data: \x7b\"type\":\"delta\",\"data\":\"Hi\"\x7d"]
     [uts "data: \x7b\"type\":\"delta\",\"data\":\"X\"\x7d"]
     (by decide) (by decide) (by decide) (by decide) (by decide) rfl
     (by decide)⟩

/-! ## Claim C10: empty deltas are dropped -/

/-- C10.  Empty-delta dropping: a decoded line whose event has type
`delta` but whose `data` field is absent, `null`, or the empty string
produces no callback and no event in either decoder, and the decoded event
sequence is the same as for the stream without that line. -/
theorem empty_delta_dropped (b : List Nat) (c : JsValue)
    (xs ys : List (List Nat))
    (hparse : jsonParse b = some c)
    (htype : fieldIs c (uts "type") (uts "delta") = true)
    (hdata : c.getField (uts "data") = none ∨
      c.getField (uts "data") = some .null ∨
      c.getField (uts "data") = some (.str []))
    (hclean : jsTrim (uts "data: " ++ b) = uts "data: " ++ b) :
    ndjsonLine b = .skip ∧
    sseLine (uts "data: " ++ b) = .skip ∧
    decodeLines ndjsonLine (xs ++ b :: ys) =
      decodeLines ndjsonLine (xs ++ ys) ∧
    decodeLines sseLine (xs ++ (uts "data: " ++ b) :: ys) =
      decodeLines sseLine (xs ++ ys) := by
  have hnd : ndjsonLine b = .skip := by
    unfold ndjsonLine
    by_cases ht : jsTrim b = []
    · rw [if_pos ht]
    · rw [if_neg ht, hparse]
      exact dispatchChunk_skip_of_empty_delta c htype hdata
  have hsse : sseLine (uts "data: " ++ b) = .skip := by
    rw [sseLine_data _ b hclean]
    unfold sseDataPayload
    have hne : b ≠ uts "[DONE]" := by
      intro he
      rw [he, jsonParse_done_sentinel] at hparse
      exact Option.noConfusion hparse
    rw [if_neg hne, hparse]
    exact dispatchChunk_skip_of_empty_delta c htype hdata
  exact ⟨hnd, hsse, decodeLinesAux_skip_insert ndjsonLine xs ys b hnd _,
    decodeLinesAux_skip_insert sseLine xs ys _ hsse _⟩

theorem empty_delta_dropped_witness :
    (jsonParse (uts "\x7b\"type\":\"delta\",\"data\":\"\"\x7d") =
       some (.obj [(uts "type", .str (uts "delta")),
                   (uts "data", .str [])]) ∧
     fieldIs (.obj [(uts "type", .str (uts "delta")),
                    (uts "data", .str [])]) (uts "type") (uts "delta") =
       true ∧
     JsValue.getField (.obj [(uts "type", .str (uts "delta")),
                             (uts "data", .str [])]) (uts "data") =
       some (.str []) ∧
     jsTrim (uts "data: " ++ uts "\x7b\"type\":\"delta\",\"data\":\"\"\x7d") =
       uts "data: " ++ uts "\x7b\"type\":\"delta\",\"data\":\"\"\x7d") ∧
    (ndjsonLine (uts "\x7b\"type\":\"delta\",\"data\":\"\"\x7d") = .skip ∧
     sseLine (uts "data: " ++
       uts "\x7b\"type\":\"delta\",\"data\":\"\"\x7d") = .skip ∧
     decodeLines ndjsonLine
       ([uts "\x7b\"type\":\"delta\",\"data\":\"A\"\x7d"] ++
        uts "\x7b\"type\":\"delta\",\"data\":\"\"\x7d" ::
        [uts "\x7b\"type\":\"delta\",\"data\":\"B\"\x7d"]) =
     decodeLines ndjsonLine
       ([uts "\x7b\"type\":\"delta\",\"data\":\"A\"\x7d"] ++
        [uts "\x7b\"type\":\"delta\",\"data\":\"B\"\x7d"]) ∧
     decodeLines sseLine
       ([uts "\x7b\"type\":\"delta\",\"data\":\"A\"\x7d"] ++
        (uts "data: " ++ uts "\x7b\"type\":\"delta\",\"data\":\"\"\x7d") ::
        [uts "\x7b\"type\":\"delta\",\"data\":\"B\"\x7d"]) =
     decodeLines sseLine
       ([uts "\x7b\"type\":\"delta\",\"data\":\"A\"\x7d"] ++
        [uts "\x7b\"type\":\"delta\",\"data\":\"B\"\x7d"])) :=
  ⟨⟨rfl, rfl, rfl, by decide⟩,
   empty_delta_dropped (uts "\x7b\"type\":\"delta\",\"data\":\"\"\x7d")
     (.obj [(uts "type", .str (uts "delta")), (uts "data", .str [])])
     [uts "\x7b\"type\":\"delta\",\"data\":\"A\"\x7d"]
     [uts "\x7b\"type\":\"delta\",\"data\":\"B\"\x7d"]
     rfl rfl (Or.inr (Or.inr rfl)) (by decide)⟩

/-! ## Claim C9: cancellation -/

/-- C9.  Cancellation: when the in-flight stream call of the SSE
`ChatContainer` session rejects with the `AbortError` of a user-initiated
cancellation, the message's final content is exactly the text accumulated
before the abort (nothing further is ever appended — deltas after the abort
no longer exist, since the transport read has been halted), the `thinking`
flag and the `isGenerating` flag are cleared, no failure message replaces
the content, and no fallback request is made (the SSE orchestrator performs
no `/query` call on any path). -/
theorem cancellation_halts (deltas : List JsValue) :
    (handleSendSSE deltas .abortError).content = deltasText deltas ∧
    (handleSendSSE deltas .abortError).thinking = false ∧
    (handleSendSSE deltas .abortError).generating = false ∧
    (handleSendSSE deltas .abortError).fallbackCalls = 0 ∧
    (handleSendSSE deltas .abortError).failureShown = false :=
  ⟨rfl, rfl, rfl, rfl, rfl⟩

/-! ## Claim C4: empty-stream fallback -/

/-- C4, counterexample to the claim as stated: for the active SSE
orchestrator (`ChatContainer.tsx`), a session whose stream ends normally
with a lone `Done` sentinel and zero accumulated characters issues no
fallback request at all — it surfaces a failure message instead, so the
final content is not a fallback `answer`. -/
theorem empty_stream_fallback_counterexample :
    (sseSession [utf8Encode "data: [DONE]\n"]).fallbackCalls = 0 ∧
    (sseSession [utf8Encode "data: [DONE]\n"]).failureShown = true ∧
    (sseSession [utf8Encode "data: [DONE]\n"]).content =
      uts "请求失败：流式输出未收到任何内容" :=
  ⟨rfl, rfl, rfl⟩

/-- C4, amended.  Empty-stream fallback of the line-JSON orchestrator (the
older `ChatContainer` variant): a session whose stream resolves normally
with zero characters accumulated issues exactly one non-streaming fallback
request, and the fallback response's `answer` field — preferred over
`output` when answer is non-empty, `output` used when the answer is empty
and the output present and non-empty, the empty string when neither is
usable — becomes the final content of the assistant message. -/
theorem empty_stream_fallback (chunks : List (List Nat)) (fb : QueryResponse)
    (o : List Nat)
    (hempty : deltasText ((runNDJSON chunks).filterMap fun e =>
      match e with
      | .delta d => some d
      | _ => none) = []) :
    (legacySession chunks fb).fallbackCalls = 1 ∧
    (legacySession chunks fb).content = answerOrOutput fb ∧
    (legacySession chunks fb).thinking = false ∧
    (fb.answer ≠ [] → answerOrOutput fb = fb.answer) ∧
    (fb.answer = [] → fb.output = some o → o ≠ [] → answerOrOutput fb = o) ∧
    (fb.answer = [] → fb.output = none → answerOrOutput fb = []) := by
  have hrun : legacySession chunks fb =
      ⟨answerOrOutput fb, false, 1, false⟩ := by
    unfold legacySession handleSendLegacy
    rw [hempty]
    rfl
  rw [hrun]
  refine ⟨rfl, rfl, rfl, ?_, ?_, ?_⟩
  · intro h
    unfold answerOrOutput
    rw [if_pos h]
  · intro h1 h2 h3
    unfold answerOrOutput
    rw [if_neg (by simp [h1]), h2]
    show (if o ≠ [] then o else []) = o
    rw [if_pos h3]
  · intro h1 h2
    unfold answerOrOutput
    rw [if_neg (by simp [h1]), h2]

theorem empty_stream_fallback_witness :
    deltasText ((runNDJSON [utf8Encode "\x7b\"type\":\"done\"\x7d\n"]).filterMap
      fun e => match e with
      | .delta d => some d
      | _ => none) = [] ∧
    ((legacySession [utf8Encode "\x7b\"type\":\"done\"\x7d\n"]
        ⟨uts "ANS", some (uts "OUT")⟩).fallbackCalls = 1 ∧
     (legacySession [utf8Encode "\x7b\"type\":\"done\"\x7d\n"]
        ⟨uts "ANS", some (uts "OUT")⟩).content =
       answerOrOutput ⟨uts "ANS", some (uts "OUT")⟩ ∧
     (legacySession [utf8Encode "\x7b\"type\":\"done\"\x7d\n"]
        ⟨uts "ANS", some (uts "OUT")⟩).thinking = false ∧
     ((⟨uts "ANS", some (uts "OUT")⟩ : QueryResponse).answer ≠ [] →
       answerOrOutput ⟨uts "ANS", some (uts "OUT")⟩ = uts "ANS") ∧
     ((⟨uts "ANS", some (uts "OUT")⟩ : QueryResponse).answer = [] →
       (⟨uts "ANS", some (uts "OUT")⟩ : QueryResponse).output =
         some (uts "OUT") → uts "OUT" ≠ [] →
       answerOrOutput ⟨uts "ANS", some (uts "OUT")⟩ = uts "OUT") ∧
     ((⟨uts "ANS", some (uts "OUT")⟩ : QueryResponse).answer = [] →
       (⟨uts "ANS", some (uts "OUT")⟩ : QueryResponse).output = none →
       answerOrOutput ⟨uts "ANS", some (uts "OUT")⟩ = [])) :=
  ⟨rfl, empty_stream_fallback [utf8Encode "\x7b\"type\":\"done\"\x7d\n"]
    ⟨uts "ANS", some (uts "OUT")⟩ (uts "OUT") rfl⟩

/-! ## Claim C5: protocol error surfacing (code bug) -/

/-- Line-JSON stream whose server emits an explicit error event followed by
a delta and a done. -/
def errorSceneNDJSON : List Nat :=
  utf8Encode "\x7b\"type\":\"error\",\"message\":\"boom\"\x7d\n\x7b\"type\":\"delta\",\"data\":\"x\"\x7d\n\x7b\"type\":\"done\"\x7d\n"

/-- The same stream in the field-framed SSE framing. -/
def errorSceneSSE : List Nat :=
  utf8Encode "data: \x7b\"type\":\"error\",\"message\":\"boom\"\x7d\ndata: \x7b\"type\":\"delta\",\"data\":\"x\"\x7d\ndata: [DONE]\n"

/-- C5, evaluated at the failing input: in both decoders an explicit error
event is only logged and the stream continues — the delta emitted after the
error is still decoded and acted upon, and the session ends with the
post-error delta as content and no user-visible failure message.  (In
`postQueryStream` the `throw new Error(chunk.message || ...)` sits inside
the `try` whose `catch` swallows it; in `postQueryStreamSSE` the error is
only `console.error`-ed.)  This contradicts the claimed surfacing and
termination behaviour. -/
theorem error_event_swallowed :
    runNDJSON [errorSceneNDJSON] =
      [.error (some (.str (uts "boom"))), .delta (.str (uts "x")), .done] ∧
    (legacySession [errorSceneNDJSON] ⟨uts "ANS", none⟩).content =
      uts "x" ∧
    (legacySession [errorSceneNDJSON] ⟨uts "ANS", none⟩).failureShown =
      false ∧
    (legacySession [errorSceneNDJSON] ⟨uts "ANS", none⟩).fallbackCalls =
      0 ∧
    runSSE [errorSceneSSE] =
      [.error (some (.str (uts "boom"))), .delta (.str (uts "x")), .done] ∧
    (sseSession [errorSceneSSE]).content = uts "x" ∧
    (sseSession [errorSceneSSE]).failureShown = false ∧
    (sseSession [errorSceneSSE]).thinking = false := by
  have hr1 : runNDJSON [errorSceneNDJSON] =
      [.error (some (.str (uts "boom"))), .delta (.str (uts "x")), .done] :=
    rfl
  have hr2 : runSSE [errorSceneSSE] =
      [.error (some (.str (uts "boom"))), .delta (.str (uts "x")), .done] :=
    rfl
  have hdt : deltasText [JsValue.str (uts "x")] = uts "x" := by
    simp [deltasText, jsToString]
  have hne : uts "x" ≠ [] := by decide
  have hleg : legacySession [errorSceneNDJSON] ⟨uts "ANS", none⟩ =
      ⟨uts "x", false, 0, false⟩ := by
    unfold legacySession
    rw [hr1]
    show handleSendLegacy [JsValue.str (uts "x")] .normal
      ⟨uts "ANS", none⟩ = ⟨uts "x", false, 0, false⟩
    simp only [handleSendLegacy]
    rw [hdt, if_pos hne]
  have hsse2 : sseSession [errorSceneSSE] =
      ⟨uts "x", false, false, 0, false⟩ := by
    unfold sseSession
    rw [hr2]
    show handleSendSSE [JsValue.str (uts "x")] .normal =
      ⟨uts "x", false, false, 0, false⟩
    simp only [handleSendSSE]
    rw [hdt, if_neg hne]
  rw [hleg, hsse2]
  exact ⟨hr1, rfl, rfl, rfl, hr2, rfl, rfl, rfl⟩
